import Mathlib

/-!
Verification of the auth and rate-limit middleware of `auto-shopify`.

Shallow embedding of the security-relevant core of the repository:

* `src/lib/auth/jwt-middleware.ts` — `checkRateLimit`, `verifyJWT`,
  `generateJWT`, `generateRefreshToken`, `getSecurityHeaders`,
  `sanitizeInput`, `getClientIdentifier`, `withAuth`;
* `src/app/api/auth/login/route.ts` — `checkLoginRateLimit`,
  `recordFailedLogin`, `clearFailedLogins`.

Modelling conventions:

* JavaScript `Map<string, V>` objects become association lists
  `List (String × V)`; `Map.set` replaces the first binding in place
  (preserving insertion order, as JS maps do) and appends new keys at the
  end; `Map.delete` removes the binding.
* Timestamps (`Date.now()` milliseconds, JWT second-granularity claims)
  become `Int`; request counts become `Nat`; JS numeric subtraction that
  can go negative (e.g. `remaining`) is carried out in `Int`.
* The stateful functions take the table and the current time explicitly
  and return the result together with the new table.
* `jsonwebtoken`'s `sign`/`verify` are embedded structurally: a token is a
  record of its payload, registered claims and the signing secret; `verify`
  compares the secret (signature check) and the expiry against the clock.
  Crucially, the repository calls `jwt.verify(token, JWT_SECRET)` with no
  `audience`/`issuer` options, so the embedded verifier checks neither —
  exactly as the library behaves when those options are absent.
* Handlers passed to `withAuth` are total Lean functions, so the
  `catch`-to-HTTP-500 branch of `withAuth` is unreachable in the model and
  is not represented.
-/

namespace AutoShopify

/-! Section: association-list model of JavaScript `Map`. -/

/-- First binding of `k` in the association list (JS `Map.get`). -/
def alistFind {α : Type} (m : List (String × α)) (k : String) : Option α :=
  match m with
  | [] => none
  | (k', v) :: rest => if k' = k then some v else alistFind rest k

/-- JS `Map.set`: replace the first binding of `k` in place, or append. -/
def alistSet {α : Type} (m : List (String × α)) (k : String) (v : α) :
    List (String × α) :=
  match m with
  | [] => [(k, v)]
  | (k', v') :: rest =>
      if k' = k then (k, v) :: rest else (k', v') :: alistSet rest k v

/-- JS `Map.delete`: remove the binding(s) of `k`. -/
def alistDel {α : Type} (m : List (String × α)) (k : String) :
    List (String × α) :=
  m.filter (fun p => p.1 ≠ k)

theorem alistFind_alistSet_self {α : Type} (m : List (String × α))
    (k : String) (v : α) : alistFind (alistSet m k v) k = some v := by
  induction m with
  | nil => simp [alistSet, alistFind]
  | cons p rest ih =>
      by_cases h : p.1 = k
      · simp [alistSet, alistFind, h]
      · simp [alistSet, alistFind, h, ih]

theorem alistFind_filter_of_mem {α : Type} (m : List (String × α))
    (q : String × α → Bool) (k : String) (v : α)
    (hfind : alistFind m k = some v) (hq : q (k, v) = true) :
    alistFind (m.filter q) k = some v := by
  induction m with
  | nil => simp [alistFind] at hfind
  | cons p rest ih =>
      by_cases h : p.1 = k
      · have hv : p.2 = v := by
          simp [alistFind, h] at hfind
          exact hfind
        have hp : p = (k, v) := by
          cases p; simp_all
        subst hp
        simp [List.filter, hq, alistFind]
      · simp only [alistFind, if_neg h] at hfind
        cases hqp : q p with
        | true => simp [List.filter, hqp, alistFind, h, ih hfind]
        | false => simp [List.filter, hqp, ih hfind]

theorem alistFind_filter_of_none {α : Type} (m : List (String × α))
    (q : String × α → Bool) (k : String)
    (h : ∀ p ∈ m, p.1 = k → q p = false) :
    alistFind (m.filter q) k = none := by
  induction m with
  | nil => simp [alistFind]
  | cons p rest ih =>
      have hrest : ∀ p' ∈ rest, p'.1 = k → q p' = false := by
        intro p' hp' hk
        exact h p' (List.mem_cons_of_mem _ hp') hk
      by_cases hk : p.1 = k
      · have : q p = false := h p (List.mem_cons_self _ _) hk
        simp [List.filter, this, ih hrest]
      · cases hqp : q p with
        | true => simp [List.filter, hqp, alistFind, hk, ih hrest]
        | false => simp [List.filter, hqp, ih hrest]

theorem alistFind_alistDel_self {α : Type} (m : List (String × α))
    (k : String) : alistFind (alistDel m k) k = none := by
  apply alistFind_filter_of_none
  intro p _ hk
  simp [hk]

theorem alistDel_idem {α : Type} (m : List (String × α)) (k : String) :
    alistDel (alistDel m k) k = alistDel m k := by
  simp [alistDel, List.filter_filter]

/-! Section: per-endpoint rate limiter (`checkRateLimit`, jwt-middleware.ts 66-102). -/

/-- One entry of an endpoint's rate-limit map:
`{ count: number, resetTime: number }`. -/
structure RateLimitEntry where
  count : Nat
  resetTime : Int
deriving Repr, DecidableEq

/-- The `RateLimitResult` interface of jwt-middleware.ts (`resetTime` is optional there). -/
structure RateLimitResult where
  allowed : Bool
  remaining : Int
  resetTime : Option Int
deriving Repr, DecidableEq

/-- The per-endpoint inner map `Map<string, { count, resetTime }>`. -/
abbrev EndpointMap := List (String × RateLimitEntry)

/-- The module-level `rateLimitMaps : Map<string, Map<...>>`. -/
abbrev RateLimitMaps := List (String × EndpointMap)

/-- The "Clean old entries" loop: delete every entry with
`value.resetTime < windowStart`. -/
def purgeExpired (m : EndpointMap) (windowStart : Int) : EndpointMap :=
  m.filter (fun p => !(p.2.resetTime < windowStart))

/-- Embedding of `checkRateLimit(identifier, endpoint, maxRequests, windowMs)` with the
clock `now` and the table threaded explicitly.  Mirrors the source branch
for branch: purge, then fresh-entry / over-limit / increment. -/
def checkRateLimit (identifier endpoint : String) (maxRequests : Nat)
    (windowMs now : Int) (maps : RateLimitMaps) :
    RateLimitResult × RateLimitMaps :=
  let windowStart := now - windowMs
  let endpointMap := (alistFind maps endpoint).getD []
  let endpointMap := purgeExpired endpointMap windowStart
  match alistFind endpointMap identifier with
  | none =>
      let resetTime := now + windowMs
      (⟨true, (maxRequests : Int) - 1, some resetTime⟩,
       alistSet maps endpoint (alistSet endpointMap identifier ⟨1, resetTime⟩))
  | some current =>
      if current.resetTime < windowStart then
        let resetTime := now + windowMs
        (⟨true, (maxRequests : Int) - 1, some resetTime⟩,
         alistSet maps endpoint (alistSet endpointMap identifier ⟨1, resetTime⟩))
      else if maxRequests ≤ current.count then
        (⟨false, 0, some current.resetTime⟩, alistSet maps endpoint endpointMap)
      else
        (⟨true, (maxRequests : Int) - (current.count + 1), some current.resetTime⟩,
         alistSet maps endpoint
           (alistSet endpointMap identifier ⟨current.count + 1, current.resetTime⟩))

/-- The entry recorded for `(identifier, endpoint)`, if any. -/
def entryOf (maps : RateLimitMaps) (endpoint identifier : String) :
    Option RateLimitEntry :=
  alistFind ((alistFind maps endpoint).getD []) identifier

/-- A sequence of `checkRateLimit` calls at the given times, returning the
results in order together with the final table. -/
def runSeq (identifier endpoint : String) (maxRequests : Nat) (windowMs : Int) :
    List Int → RateLimitMaps → List RateLimitResult × RateLimitMaps
  | [], maps => ([], maps)
  | t :: ts, maps =>
      let step := checkRateLimit identifier endpoint maxRequests windowMs t maps
      let rest := runSeq identifier endpoint maxRequests windowMs ts step.2
      (step.1 :: rest.1, rest.2)

/-! Section: step lemmas for `checkRateLimit`. -/

theorem entryOf_purged (maps : RateLimitMaps) (endpoint identifier : String)
    (e : RateLimitEntry) (ws : Int)
    (hfind : entryOf maps endpoint identifier = some e)
    (hlive : ws ≤ e.resetTime) :
    alistFind (purgeExpired ((alistFind maps endpoint).getD []) ws) identifier
      = some e := by
  apply alistFind_filter_of_mem _ _ _ _ hfind
  simp [not_lt.mpr hlive]

/-- Increment step: a live entry below the limit is bumped and the call is
allowed with `remaining = maxRequests - (count+1)`. -/
theorem checkRateLimit_incr (maps : RateLimitMaps) (identifier endpoint : String)
    (maxRequests : Nat) (windowMs now : Int) (c : Nat) (rt : Int)
    (hfind : entryOf maps endpoint identifier = some ⟨c, rt⟩)
    (hlive : now - windowMs ≤ rt) (hc : c < maxRequests) :
    (checkRateLimit identifier endpoint maxRequests windowMs now maps).1
        = ⟨true, (maxRequests : Int) - (c + 1), some rt⟩ ∧
    entryOf (checkRateLimit identifier endpoint maxRequests windowMs now maps).2
        endpoint identifier = some ⟨c + 1, rt⟩ := by
  have hp := entryOf_purged maps endpoint identifier ⟨c, rt⟩ (now - windowMs)
    hfind hlive
  constructor
  · simp [checkRateLimit, hp, not_lt.mpr hlive, not_le.mpr hc]
  · simp [checkRateLimit, hp, not_lt.mpr hlive, not_le.mpr hc, entryOf,
      alistFind_alistSet_self]

/-- Reject step: a live entry at or above the limit leaves the count alone
and the call is rejected with `remaining = 0`. -/
theorem checkRateLimit_reject (maps : RateLimitMaps) (identifier endpoint : String)
    (maxRequests : Nat) (windowMs now : Int) (c : Nat) (rt : Int)
    (hfind : entryOf maps endpoint identifier = some ⟨c, rt⟩)
    (hlive : now - windowMs ≤ rt) (hc : maxRequests ≤ c) :
    (checkRateLimit identifier endpoint maxRequests windowMs now maps).1
        = ⟨false, 0, some rt⟩ ∧
    entryOf (checkRateLimit identifier endpoint maxRequests windowMs now maps).2
        endpoint identifier = some ⟨c, rt⟩ := by
  have hp := entryOf_purged maps endpoint identifier ⟨c, rt⟩ (now - windowMs)
    hfind hlive
  constructor
  · simp [checkRateLimit, hp, not_lt.mpr hlive, hc]
  · simp [checkRateLimit, hp, not_lt.mpr hlive, hc, entryOf,
      alistFind_alistSet_self]

/-- Fresh step: when every binding of `identifier` in the endpoint's map is
expired (or absent), a new entry with count 1 is installed and the call is
allowed with `remaining = maxRequests - 1`. -/
theorem checkRateLimit_fresh (maps : RateLimitMaps) (identifier endpoint : String)
    (maxRequests : Nat) (windowMs now : Int)
    (hstale : ∀ p ∈ (alistFind maps endpoint).getD [], p.1 = identifier →
        p.2.resetTime < now - windowMs) :
    (checkRateLimit identifier endpoint maxRequests windowMs now maps).1
        = ⟨true, (maxRequests : Int) - 1, some (now + windowMs)⟩ ∧
    entryOf (checkRateLimit identifier endpoint maxRequests windowMs now maps).2
        endpoint identifier = some ⟨1, now + windowMs⟩ := by
  have hnone : alistFind
      (purgeExpired ((alistFind maps endpoint).getD []) (now - windowMs))
      identifier = none := by
    apply alistFind_filter_of_none
    intro p hp hk
    simp [hstale p hp hk]
  constructor
  · simp [checkRateLimit, hnone]
  · simp [checkRateLimit, hnone, entryOf, alistFind_alistSet_self]

/-- The runner `runSeq` distributes over list append. -/
theorem runSeq_append (identifier endpoint : String) (maxRequests : Nat)
    (windowMs : Int) (l₁ l₂ : List Int) (maps : RateLimitMaps) :
    runSeq identifier endpoint maxRequests windowMs (l₁ ++ l₂) maps
      = ((runSeq identifier endpoint maxRequests windowMs l₁ maps).1
          ++ (runSeq identifier endpoint maxRequests windowMs l₂
                (runSeq identifier endpoint maxRequests windowMs l₁ maps).2).1,
         (runSeq identifier endpoint maxRequests windowMs l₂
            (runSeq identifier endpoint maxRequests windowMs l₁ maps).2).2) := by
  induction l₁ generalizing maps with
  | nil => simp [runSeq]
  | cons t ts ih => simp [runSeq, ih]

/-- While the count stays below the limit, every call in the window is
allowed, the count increases by one per call, and the `remaining` values
descend from `maxRequests - (c+1)`. -/
theorem runSeq_allowed_phase (identifier endpoint : String) (maxRequests : Nat)
    (windowMs t0 : Int) :
    ∀ (ts : List Int) (c : Nat) (maps : RateLimitMaps),
      entryOf maps endpoint identifier = some ⟨c, t0 + windowMs⟩ →
      (∀ t ∈ ts, t0 ≤ t ∧ t ≤ t0 + windowMs) →
      0 ≤ windowMs →
      c + ts.length ≤ maxRequests →
      (runSeq identifier endpoint maxRequests windowMs ts maps).1
        = (List.range ts.length).map
            (fun i => ⟨true, (maxRequests : Int) - (c + i + 1), some (t0 + windowMs)⟩) ∧
      entryOf (runSeq identifier endpoint maxRequests windowMs ts maps).2
          endpoint identifier = some ⟨c + ts.length, t0 + windowMs⟩ := by
  intro ts
  induction ts with
  | nil =>
      intro c maps hentry _ _ _
      exact ⟨by simp [runSeq], by simpa [runSeq] using hentry⟩
  | cons t ts ih =>
      intro c maps hentry hbounds hw hlen
      have hb := hbounds t (List.mem_cons_self _ _)
      have hlive : t - windowMs ≤ t0 + windowMs := by omega
      have hc : c < maxRequests := by
        simp only [List.length_cons] at hlen; omega
      obtain ⟨hstep1, hstep2⟩ := checkRateLimit_incr maps identifier endpoint
        maxRequests windowMs t c (t0 + windowMs) hentry hlive hc
      have hrest := ih (c + 1)
        (checkRateLimit identifier endpoint maxRequests windowMs t maps).2
        hstep2
        (fun t' ht' => hbounds t' (List.mem_cons_of_mem _ ht'))
        hw
        (by simp only [List.length_cons] at hlen; omega)
      constructor
      · simp only [runSeq, hstep1, hrest.1, List.length_cons,
          List.range_succ_eq_map, List.map_cons, List.map_map,
          List.cons.injEq]
        constructor
        · simp
        · apply List.map_congr_left
          intro i _
          simp only [Function.comp_apply, RateLimitResult.mk.injEq]
          refine ⟨trivial, ?_, trivial⟩
          push_cast
          ring
      · simp only [runSeq, List.length_cons]
        have : c + 1 + ts.length = c + (ts.length + 1) := by omega
        rw [← this]
        exact hrest.2

/-- C1. Starting with no live entry for `(identifier, endpoint)`,
`maxRequests + 1` calls inside the window of the first call are allowed
with `remaining = maxRequests-1, …, 0` and the last call is rejected with
`remaining = 0`. -/
theorem checkRateLimit_window_exact
    (maxRequests : Nat) (windowMs t0 : Int) (identifier endpoint : String)
    (restTimes : List Int) (maps0 : RateLimitMaps)
    (hmax : 1 ≤ maxRequests) (hw : 0 < windowMs)
    (hlen : restTimes.length = maxRequests)
    (hbounds : ∀ t ∈ restTimes, t0 ≤ t ∧ t ≤ t0 + windowMs)
    (hstale : ∀ p ∈ (alistFind maps0 endpoint).getD [], p.1 = identifier →
        p.2.resetTime < t0 - windowMs) :
    (runSeq identifier endpoint maxRequests windowMs (t0 :: restTimes) maps0).1
      = (List.range maxRequests).map
          (fun i => ⟨true, (maxRequests : Int) - 1 - i, some (t0 + windowMs)⟩)
        ++ [⟨false, 0, some (t0 + windowMs)⟩] := by
  rcases List.eq_nil_or_concat restTimes with hnil | ⟨mid, tlast, hsplit⟩
  · subst hnil; simp at hlen; omega
  rw [List.concat_eq_append] at hsplit
  subst hsplit
  have hmidlen : mid.length + 1 = maxRequests := by simpa using hlen
  obtain ⟨h01, h02⟩ := checkRateLimit_fresh maps0 identifier endpoint
    maxRequests windowMs t0 hstale
  set maps1 := (checkRateLimit identifier endpoint maxRequests windowMs t0 maps0).2
    with hm1
  obtain ⟨hp1, hp2⟩ := runSeq_allowed_phase identifier endpoint maxRequests
    windowMs t0 mid 1 maps1 h02
    (fun t ht => hbounds t (List.mem_append_left _ ht))
    hw.le (by omega)
  set maps2 := (runSeq identifier endpoint maxRequests windowMs mid maps1).2
    with hm2
  have hentry2 : entryOf maps2 endpoint identifier
      = some ⟨maxRequests, t0 + windowMs⟩ := by
    rw [hp2]
    congr 2
    omega
  have hlastb := hbounds tlast (List.mem_append_right _ (List.mem_singleton_self _))
  obtain ⟨hr1, _⟩ := checkRateLimit_reject maps2 identifier endpoint maxRequests
    windowMs tlast maxRequests (t0 + windowMs) hentry2 (by omega) le_rfl
  have key : (runSeq identifier endpoint maxRequests windowMs
        (t0 :: (mid ++ [tlast])) maps0).1
      = (⟨true, (maxRequests : Int) - 1, some (t0 + windowMs)⟩ : RateLimitResult)
        :: ((List.range mid.length).map
              (fun i => ⟨true, (maxRequests : Int) - (1 + i + 1), some (t0 + windowMs)⟩)
            ++ [⟨false, 0, some (t0 + windowMs)⟩]) := by
    simp only [runSeq]
    rw [runSeq_append]
    simp only [runSeq]
    rw [h01, ← hm1, hp1, ← hm2, hr1]
    push_cast
    rfl
  rw [key, ← hmidlen, List.range_succ_eq_map, List.map_cons, List.map_map,
    List.cons_append, List.cons.injEq]
  constructor
  · simp
  rw [List.append_left_inj]
  apply List.map_congr_left
  intro i _
  simp only [Function.comp_apply, RateLimitResult.mk.injEq]
  refine ⟨trivial, ?_, trivial⟩
  push_cast
  ring

/-- Witness for C1: the spec's own scenario — identifier `"1.2.3.4"` on
endpoint `"/login"` with `max = 5`: remaining 4,3,2,1,0 and a rejected
sixth call. -/
theorem checkRateLimit_window_exact_witness :
    (1 ≤ 5 ∧ (0 : Int) < 900000 ∧ ([1, 2, 3, 4, 5] : List Int).length = 5 ∧
      (∀ t ∈ ([1, 2, 3, 4, 5] : List Int), (0 : Int) ≤ t ∧ t ≤ 0 + 900000) ∧
      (∀ p ∈ (alistFind ([] : RateLimitMaps) "/login").getD [],
        p.1 = "1.2.3.4" → p.2.resetTime < 0 - 900000)) ∧
    (runSeq "1.2.3.4" "/login" 5 900000 ((0 : Int) :: [1, 2, 3, 4, 5]) []).1
      = (List.range 5).map
          (fun i => ⟨true, ((5 : Nat) : Int) - 1 - i, some ((0 : Int) + 900000)⟩)
        ++ [⟨false, 0, some ((0 : Int) + 900000)⟩] := by
  refine ⟨⟨by decide, by decide, by decide, by decide, by decide⟩, ?_⟩
  exact checkRateLimit_window_exact 5 900000 0 "1.2.3.4" "/login"
    [1, 2, 3, 4, 5] [] (by decide) (by decide) (by decide) (by decide)
    (by decide)

/-- C2 (code bug). An entry created at `t0 = 0` with `windowMs = 100`
and `max = 1` is *not* treated as expired at `t = 150 > t0 + windowMs`:
the second call is rejected, because the code compares
`current.resetTime < now - windowMs` (instead of `current.resetTime < now`),
so an entry survives until `t0 + 2·windowMs` — only the call at `t = 201`
gets a fresh window.  The spec (and the code's own `Retry-After` /
`X-RateLimit-Reset` reporting, which both present `resetTime` as the
moment the limit resets) say the entry should be reset at any
`t > t0 + windowMs`. -/
theorem checkRateLimit_twoWindow_expiry_bug :
    ((checkRateLimit "1.2.3.4" "/login" 1 100 0 []).1.allowed = true)
    ∧ (checkRateLimit "1.2.3.4" "/login" 1 100 150
         (checkRateLimit "1.2.3.4" "/login" 1 100 0 []).2).1
        = ⟨false, 0, some 100⟩
    ∧ (checkRateLimit "1.2.3.4" "/login" 1 100 201
         (checkRateLimit "1.2.3.4" "/login" 1 100 0 []).2).1.allowed = true := by
  decide

/-! Section: login lockout tracker (`src/app/api/auth/login/route.ts` 7-67). -/

/-- One entry of `loginAttemptMap`:
`{ count: number, resetTime: number, lockedUntil?: number }`. -/
structure LoginEntry where
  count : Nat
  resetTime : Int
  lockedUntil : Option Int
deriving Repr, DecidableEq

/-- Result shape of `checkLoginRateLimit`. -/
structure LoginCheckResult where
  allowed : Bool
  remaining : Int
  lockedUntil : Option Int
deriving Repr, DecidableEq

abbrev LoginMap := List (String × LoginEntry)

def LOGIN_RATE_LIMIT : Nat := 5

def LOGIN_WINDOW : Int := 900000

def LOCKOUT_DURATION : Int := 1800000

/-- The guard `current?.lockedUntil && current.lockedUntil > now`
(`lockedUntil = 0` is falsy in JS, hence the `lu != 0` conjunct). -/
def lockedNow (e : LoginEntry) (now : Int) : Bool :=
  match e.lockedUntil with
  | some lu => lu != 0 && now < lu
  | none => false

/-- Embedding of `checkLoginRateLimit(identifier)` with clock and table explicit. -/
def checkLoginRateLimit (identifier : String) (now : Int) (m : LoginMap) :
    LoginCheckResult × LoginMap :=
  match alistFind m identifier with
  | none =>
      (⟨true, (LOGIN_RATE_LIMIT : Int), none⟩,
       alistSet m identifier ⟨0, now + LOGIN_WINDOW, none⟩)
  | some current =>
      if lockedNow current now then
        (⟨false, 0, current.lockedUntil⟩, m)
      else if current.resetTime < now then
        (⟨true, (LOGIN_RATE_LIMIT : Int), none⟩,
         alistSet m identifier ⟨0, now + LOGIN_WINDOW, none⟩)
      else if LOGIN_RATE_LIMIT ≤ current.count then
        (⟨false, 0, some (now + LOCKOUT_DURATION)⟩,
         alistSet m identifier
           ⟨current.count, current.resetTime, some (now + LOCKOUT_DURATION)⟩)
      else
        (⟨true, (LOGIN_RATE_LIMIT : Int) - current.count, none⟩, m)

/-- Embedding of `recordFailedLogin(identifier)`.  Note that a fresh/expired entry is
replaced by `{ count: 1, resetTime: now + LOGIN_WINDOW }` with no
`lockedUntil`, and an in-window entry just has `count++`. -/
def recordFailedLogin (identifier : String) (now : Int) (m : LoginMap) :
    LoginMap :=
  match alistFind m identifier with
  | none => alistSet m identifier ⟨1, now + LOGIN_WINDOW, none⟩
  | some current =>
      if current.resetTime < now then
        alistSet m identifier ⟨1, now + LOGIN_WINDOW, none⟩
      else
        alistSet m identifier
          ⟨current.count + 1, current.resetTime, current.lockedUntil⟩

/-- Embedding of `clearFailedLogins(identifier)`: `loginAttemptMap.delete(identifier)`. -/
def clearFailedLogins (identifier : String) (m : LoginMap) : LoginMap :=
  alistDel m identifier

/-- One failed login attempt as the `POST` handler performs it:
`checkLoginRateLimit` (whose table mutation persists), then, when the
attempt is admitted, `recordFailedLogin` after the credential failure. -/
def failedAttempt (identifier : String) (now : Int) (m : LoginMap) : LoginMap :=
  let step := checkLoginRateLimit identifier now m
  if step.1.allowed then recordFailedLogin identifier now step.2 else step.2

/-- C3 (counterexample). Five failed login attempts at times 0..4 bring
the count to the maximum (5) inside the 15-minute window, yet the next
`checkLoginRateLimit` at `t = 960000` (the window has expired, but we are
well within 30 minutes of the fifth failure) returns `allowed = true`:
`lockedUntil` is only ever set lazily by a *check* that happens while the
window is still live, so a quiet period lets the lockout never engage. -/
theorem checkLoginRateLimit_lockout_claim_false :
    (let m := failedAttempt "1.2.3.4" 4 (failedAttempt "1.2.3.4" 3
      (failedAttempt "1.2.3.4" 2 (failedAttempt "1.2.3.4" 1
        (failedAttempt "1.2.3.4" 0 []))));
     alistFind m "1.2.3.4" = some ⟨5, 900000, none⟩ ∧
     (960000 : Int) - 4 < LOCKOUT_DURATION ∧
     (checkLoginRateLimit "1.2.3.4" 960000 m).1.allowed = true) := by
  decide

/-- C3 (amended). Lockout as the code actually implements it: when a
`checkLoginRateLimit` call finds a live (unexpired) entry with
`count ≥ 5`, it rejects and sets `lockedUntil = now + 30min`; and while an
entry carries a `lockedUntil` in the future, every check is rejected with
that `lockedUntil` — with no condition on the window, i.e. even when the
window that accumulated the failures has expired. -/
theorem checkLoginRateLimit_lockout_amended (m : LoginMap)
    (identifier : String) (now : Int) (e : LoginEntry)
    (hfind : alistFind m identifier = some e) :
    (e.lockedUntil = none → ¬ e.resetTime < now → LOGIN_RATE_LIMIT ≤ e.count →
      (checkLoginRateLimit identifier now m).1
        = ⟨false, 0, some (now + LOCKOUT_DURATION)⟩ ∧
      alistFind (checkLoginRateLimit identifier now m).2 identifier
        = some ⟨e.count, e.resetTime, some (now + LOCKOUT_DURATION)⟩) ∧
    (∀ lu : Int, e.lockedUntil = some lu → lu ≠ 0 → now < lu →
      (checkLoginRateLimit identifier now m).1 = ⟨false, 0, some lu⟩ ∧
      (checkLoginRateLimit identifier now m).2 = m) := by
  constructor
  · intro hnone hwin hcount
    have hlock : lockedNow e now = false := by simp [lockedNow, hnone]
    constructor
    · simp [checkLoginRateLimit, hfind, hlock, hwin, hcount]
    · simp [checkLoginRateLimit, hfind, hlock, hwin, hcount,
        alistFind_alistSet_self]
  · intro lu hlu hlu0 hnow
    have hlock : lockedNow e now = true := by
      simp [lockedNow, hlu, hlu0, hnow]
    constructor
    · simp [checkLoginRateLimit, hfind, hlock, hlu]
    · simp [checkLoginRateLimit, hfind, hlock]

/-- Witness for the amended C3: a live over-limit entry triggers the
lockout, and a (window-expired) locked entry stays rejected. -/
theorem checkLoginRateLimit_lockout_amended_witness :
    ((checkLoginRateLimit "u" 50 [("u", ⟨5, 100, none⟩)]).1
      = ⟨false, 0, some (50 + LOCKOUT_DURATION)⟩) ∧
    ((checkLoginRateLimit "u" 950000 [("u", ⟨5, 100, some 2000000⟩)]).1
      = ⟨false, 0, some 2000000⟩) := by
  constructor
  · exact ((checkLoginRateLimit_lockout_amended [("u", ⟨5, 100, none⟩)] "u" 50
      ⟨5, 100, none⟩ (by decide)).1 rfl (by decide) (by decide)).1
  · exact ((checkLoginRateLimit_lockout_amended
      [("u", ⟨5, 100, some 2000000⟩)] "u" 950000
      ⟨5, 100, some 2000000⟩ (by decide)).2 2000000 rfl (by decide)
      (by decide)).1

/-- C8. The function `clearFailedLogins` removes the identifier's entry, so the next
`checkLoginRateLimit` answers `allowed = true` with the full remaining
count (5), and clearing is idempotent: two consecutive clears leave the
same absent-entry state as one. -/
theorem clearFailedLogins_resets (m : LoginMap) (identifier : String)
    (now : Int) :
    (checkLoginRateLimit identifier now (clearFailedLogins identifier m)).1
      = ⟨true, (LOGIN_RATE_LIMIT : Int), none⟩ ∧
    clearFailedLogins identifier (clearFailedLogins identifier m)
      = clearFailedLogins identifier m ∧
    alistFind (clearFailedLogins identifier m) identifier = none := by
  refine ⟨?_, alistDel_idem m identifier, alistFind_alistDel_self m identifier⟩
  simp [checkLoginRateLimit, clearFailedLogins, alistFind_alistDel_self]

/-- C10. The lockout comparison is strict: at `now = lockedUntil` the
locked branch is not taken — the result coincides with the result for the
same entry with `lockedUntil` erased; and in every reachable locked state
(where the window ended before `lockedUntil`) the call at `now =
lockedUntil` is allowed with the full remaining count. -/
theorem checkLoginRateLimit_boundary_unlocked (m : LoginMap)
    (identifier : String) (e : LoginEntry) (lu : Int)
    (hfind : alistFind m identifier = some e)
    (hlu : e.lockedUntil = some lu) :
    (checkLoginRateLimit identifier lu m).1
      = (checkLoginRateLimit identifier lu
          (alistSet m identifier ⟨e.count, e.resetTime, none⟩)).1 ∧
    (e.resetTime < lu →
      (checkLoginRateLimit identifier lu m).1
        = ⟨true, (LOGIN_RATE_LIMIT : Int), none⟩) := by
  have hlock : lockedNow e lu = false := by simp [lockedNow, hlu]
  have hlock2 : lockedNow ⟨e.count, e.resetTime, none⟩ lu = false := by
    simp [lockedNow]
  constructor
  · by_cases h1 : e.resetTime < lu
    · simp [checkLoginRateLimit, hfind, alistFind_alistSet_self, hlock,
        hlock2, h1]
    · by_cases h2 : LOGIN_RATE_LIMIT ≤ e.count
      · simp [checkLoginRateLimit, hfind, alistFind_alistSet_self, hlock,
          hlock2, h1, h2]
      · simp [checkLoginRateLimit, hfind, alistFind_alistSet_self, hlock,
          hlock2, h1, h2]
  · intro h
    simp [checkLoginRateLimit, hfind, hlock, h]

/-- Witness for C10: entry `⟨3, 100, some 5000⟩` checked exactly at
`now = 5000`. -/
theorem checkLoginRateLimit_boundary_unlocked_witness :
    (checkLoginRateLimit "u" 5000 [("u", ⟨3, 100, some 5000⟩)]).1
      = (checkLoginRateLimit "u" 5000
          (alistSet [("u", ⟨3, 100, some 5000⟩)] "u" ⟨3, 100, none⟩)).1 ∧
    (checkLoginRateLimit "u" 5000 [("u", ⟨3, 100, some 5000⟩)]).1
      = ⟨true, (LOGIN_RATE_LIMIT : Int), none⟩ := by
  have h := checkLoginRateLimit_boundary_unlocked
    [("u", ⟨3, 100, some 5000⟩)] "u" ⟨3, 100, some 5000⟩ 5000
    (by decide) rfl
  exact ⟨h.1, h.2 (by decide)⟩

/-! Section: token service (`jwt-middleware.ts` 27-52, 166-195).

A token is embedded structurally: payload plus the registered claims
`jsonwebtoken` adds on `sign` and the signing secret (standing in for the
HMAC signature).  `jwt.verify(token, JWT_SECRET)` is called in the source
with *no* options object, so the library checks the signature and `exp`
and nothing else — in particular neither `audience` nor `issuer`.  `exp`
semantics follow the library: the token is expired iff `exp ≤ now`. -/

/-- The claims the repository signs: `{ userId, email?, role? }`. -/
structure JwtPayload where
  userId : String
  email : Option String
  role : Option String
deriving Repr, DecidableEq

structure JwtToken where
  payload : JwtPayload
  iat : Int
  exp : Int
  issuer : String
  audience : String
  secret : String
deriving Repr, DecidableEq

inductive JwtError where
  | expired
  | signatureInvalid
deriving Repr, DecidableEq

/-- Seconds in `'15m'`. -/
def ACCESS_TOKEN_LIFETIME : Int := 900

/-- Seconds in `'30d'`. -/
def REFRESH_LIFETIME_REMEMBER : Int := 2592000

/-- Seconds in `'7d'`. -/
def REFRESH_LIFETIME_DEFAULT : Int := 604800

/-- Embedding of `generateJWT(payload, '15m')` at issuance time `now`. -/
def generateJWT (userId email : String) (role : Option String) (now : Int)
    (secret : String) : JwtToken :=
  ⟨⟨userId, some email, role⟩, now, now + ACCESS_TOKEN_LIFETIME,
   "shopify-automation-platform", "shopify-automation-users", secret⟩

/-- Embedding of `generateRefreshToken(userId, remember)` at issuance time `now`. -/
def generateRefreshToken (userId : String) (remember : Bool) (now : Int)
    (secret : String) : JwtToken :=
  ⟨⟨userId, none, none⟩, now,
   now + (if remember then REFRESH_LIFETIME_REMEMBER else REFRESH_LIFETIME_DEFAULT),
   "shopify-automation-platform", "shopify-automation-refresh", secret⟩

/-- Embedding of `jwt.verify(token, secret)` with no options: signature then expiry,
no audience or issuer check. -/
def jwtVerify (t : JwtToken) (secret : String) (now : Int) :
    Except JwtError JwtPayload :=
  if t.secret ≠ secret then .error .signatureInvalid
  else if t.exp ≤ now then .error .expired
  else .ok t.payload

/-- The `AuthResult` interface of jwt-middleware.ts. -/
structure AuthResult where
  valid : Bool
  userId : Option String
  email : Option String
  role : Option String
  error : Option String
deriving Repr, DecidableEq

/-- The `authorization` request header: either `Bearer <well-formed JWT>`,
`Bearer <undecodable text>`, or a value not starting with `"Bearer "`. -/
inductive AuthHeader where
  | bearer (token : JwtToken)
  | bearerMalformed
  | other (value : String)
deriving Repr, DecidableEq

/-- The slice of `NextRequest` the middleware reads. -/
structure Request where
  authorization : Option AuthHeader
  xForwardedFor : Option String
  xRealIp : Option String
  url : String
deriving Repr, DecidableEq

/-- Embedding of `verifyJWT(request)`: header shape check, then `jwt.verify`, mapping
`TokenExpiredError` to `'Token expired'` and `JsonWebTokenError`
(malformed text or bad signature) to `'Invalid token format'`. -/
def verifyJWT (req : Request) (secret : String) (now : Int) : AuthResult :=
  match req.authorization with
  | none => ⟨false, none, none, none, some "Missing or invalid authorization header"⟩
  | some (.other _) =>
      ⟨false, none, none, none, some "Missing or invalid authorization header"⟩
  | some .bearerMalformed => ⟨false, none, none, none, some "Invalid token format"⟩
  | some (.bearer t) =>
      match jwtVerify t secret now with
      | .ok p => ⟨true, some p.userId, p.email, p.role, none⟩
      | .error .expired => ⟨false, none, none, none, some "Token expired"⟩
      | .error .signatureInvalid =>
          ⟨false, none, none, none, some "Invalid token format"⟩

/-! Section: input sanitizer (`sanitizeInput`, jwt-middleware.ts 155-161). -/

/-- The quote-escaping replacement
`replace(/['"]/g, char => char === '"' ? '&quot;' : '&#x27;')`. -/
def escapeQuoteChar (c : Char) : List Char :=
  if c = '"' then "&quot;".toList
  else if c = Char.ofNat 39 then "&#x27;".toList
  else [c]

/-- The character pipeline of `sanitizeInput` after `trim`: strip `<`/`>`,
then escape quotes. -/
def sanitizeChars (l : List Char) : List Char :=
  (l.filter (fun c => c != '<' && c != '>')).flatMap escapeQuoteChar

/-- Embedding of `sanitizeInput(input, maxLength)`:
`input.trim().replace(/[<>]/g,'').replace(/['"]/g, …).substring(0, maxLength)`. -/
def sanitizeInput (input : String) (maxLength : Nat) : String :=
  String.mk ((sanitizeChars input.trim.toList).take maxLength)

/-! Section: security headers, client identifier, `withAuth`
(jwt-middleware.ts 57-61, 107-124, 200-279) -/

/-- Embedding of `getSecurityHeaders(rateLimit?)`. -/
def getSecurityHeaders (rateLimit : Option RateLimitResult) :
    List (String × String) :=
  let headers := [("X-Frame-Options", "DENY"),
    ("X-Content-Type-Options", "nosniff"),
    ("X-XSS-Protection", "1; mode=block"),
    ("Strict-Transport-Security", "max-age=31536000; includeSubDomains"),
    ("Referrer-Policy", "strict-origin-when-cross-origin")]
  match rateLimit with
  | none => headers
  | some rl =>
      headers ++ [("X-RateLimit-Remaining", toString rl.remaining)]
        ++ (match rl.resetTime with
            | some rt => [("X-RateLimit-Reset", toString ((rt + 999).ediv 1000))]
            | none => [])

/-- Embedding of `getClientIdentifier(request)`: first `X-Forwarded-For` entry, else
`X-Real-IP`, else `"unknown"`; JS treats an empty header string as falsy. -/
def getClientIdentifier (req : Request) : String :=
  let ip :=
    match req.xForwardedFor with
    | some fwd =>
        if fwd.isEmpty then
          match req.xRealIp with
          | some r => if r.isEmpty then "unknown" else r
          | none => "unknown"
        else (fwd.splitOn ",").headD ""
    | none =>
        match req.xRealIp with
        | some r => if r.isEmpty then "unknown" else r
        | none => "unknown"
  ip.trim

/-- The options type `{ rateLimit?: { max, windowMs }, endpoint?: string }` — the whole
options type of `withAuth`; note there is no `requireAuth` member. -/
structure RateLimitPolicy where
  max : Nat
  windowMs : Int
deriving Repr, DecidableEq

structure AuthOptions where
  rateLimit : Option RateLimitPolicy
  endpoint : Option String
deriving Repr, DecidableEq

/-- The slice of `Response` the middleware manipulates. -/
structure Response where
  status : Nat
  headers : List (String × String)
deriving Repr, DecidableEq

/-- The authentication half of `withAuth`: verify, 401 on failure,
otherwise the downstream handler's response, untouched. -/
def authPhase (handler : Request → AuthResult → Response) (secret : String)
    (req : Request) (now : Int) (maps : RateLimitMaps) :
    Response × RateLimitMaps :=
  let auth := verifyJWT req secret now
  if auth.valid then (handler req auth, maps)
  else (⟨401, ("Content-Type", "application/json") :: getSecurityHeaders none⟩,
        maps)

/-- Embedding of `withAuth(handler, options)` applied to one request: optional rate
limiting (429 with `Retry-After` on rejection), then authentication, then
the handler.  Handlers are total in the model, so the catch-all HTTP 500
branch of the source is unreachable and not represented. -/
def withAuth (handler : Request → AuthResult → Response)
    (options : AuthOptions) (secret : String) (req : Request)
    (maps : RateLimitMaps) (now : Int) : Response × RateLimitMaps :=
  let endpoint := options.endpoint.getD req.url
  match options.rateLimit with
  | some rl =>
      let step := checkRateLimit (getClientIdentifier req) endpoint rl.max
        rl.windowMs now maps
      if step.1.allowed then authPhase handler secret req now step.2
      else
        let retryAfter : Int :=
          match step.1.resetTime with
          | some rt => (rt - now + 999).ediv 1000
          | none => 900
        (⟨429, ("Content-Type", "application/json")
            :: ("Retry-After", toString retryAfter)
            :: getSecurityHeaders (some step.1)⟩, step.2)
  | none => authPhase handler secret req now maps

/-! Section: theorems about the sanitizer and the token service. -/

theorem sanitizeChars_no_angle (l : List Char) :
    ∀ c' ∈ sanitizeChars l, c' ≠ '<' ∧ c' ≠ '>' := by
  intro c' hc'
  rw [sanitizeChars, List.mem_flatMap] at hc'
  obtain ⟨c, hc, hmem⟩ := hc'
  rw [List.mem_filter] at hc
  have hcb : c ≠ '<' ∧ c ≠ '>' := by
    have := hc.2
    simp only [Bool.and_eq_true, bne_iff_ne, ne_eq] at this
    exact this
  unfold escapeQuoteChar at hmem
  by_cases hq : c = '"'
  · rw [if_pos hq] at hmem
    have hall : ∀ x ∈ "&quot;".toList, x ≠ '<' ∧ x ≠ '>' := by decide
    exact hall c' hmem
  · rw [if_neg hq] at hmem
    by_cases ha : c = Char.ofNat 39
    · rw [if_pos ha] at hmem
      have hall : ∀ x ∈ "&#x27;".toList, x ≠ '<' ∧ x ≠ '>' := by decide
      exact hall c' hmem
    · rw [if_neg ha] at hmem
      rw [List.mem_singleton] at hmem
      subst hmem
      exact hcb

/-- C9. The sanitizer `sanitizeInput` (a total function of its two arguments) never
leaves a literal `<` or `>` in its output, and the output length is at
most `maxLength`. -/
theorem sanitizeInput_safe (input : String) (maxLength : Nat) :
    '<' ∉ (sanitizeInput input maxLength).toList ∧
    '>' ∉ (sanitizeInput input maxLength).toList ∧
    (sanitizeInput input maxLength).length ≤ maxLength := by
  have htake : (sanitizeInput input maxLength).toList
      = (sanitizeChars input.trim.toList).take maxLength := rfl
  refine ⟨?_, ?_, ?_⟩
  · intro h
    rw [htake] at h
    exact (sanitizeChars_no_angle _ '<' (List.take_subset _ _ h)).1 rfl
  · intro h
    rw [htake] at h
    exact (sanitizeChars_no_angle _ '>' (List.take_subset _ _ h)).2 rfl
  · have hlen : (sanitizeInput input maxLength).length
        = ((sanitizeChars input.trim.toList).take maxLength).length := rfl
    rw [hlen, List.length_take]
    exact min_le_left _ _

/-- C4. Round trip through the token service: a token minted by
`generateJWT` verifies with the original claims while less than 15 minutes
old, and verification fails with `'Token expired'` when more than
15 minutes old. -/
theorem generateJWT_roundtrip (userId email : String) (role : Option String)
    (iat now : Int) (secret : String) (xff xri : Option String)
    (url : String) :
    (now - iat < 900 →
      verifyJWT ⟨some (.bearer (generateJWT userId email role iat secret)),
          xff, xri, url⟩ secret now
        = ⟨true, some userId, some email, role, none⟩) ∧
    (900 < now - iat →
      verifyJWT ⟨some (.bearer (generateJWT userId email role iat secret)),
          xff, xri, url⟩ secret now
        = ⟨false, none, none, none, some "Token expired"⟩) := by
  constructor
  · intro h
    have hexp : ¬ (iat + ACCESS_TOKEN_LIFETIME ≤ now) := by
      simp only [ACCESS_TOKEN_LIFETIME]
      omega
    simp [verifyJWT, generateJWT, jwtVerify, hexp]
  · intro h
    have hexp : iat + ACCESS_TOKEN_LIFETIME ≤ now := by
      simp only [ACCESS_TOKEN_LIFETIME]
      omega
    simp [verifyJWT, generateJWT, jwtVerify, hexp]

/-- Witness for C4 at `iat = 0`: verification at `now = 100` succeeds with
the original claims, at `now = 1000` fails as expired. -/
theorem generateJWT_roundtrip_witness :
    ((100 : Int) - 0 < 900 ∧
      verifyJWT ⟨some (.bearer (generateJWT "u1" "e@x.com" (some "admin") 0 "s")),
          none, none, "/api"⟩ "s" 100
        = ⟨true, some "u1", some "e@x.com", some "admin", none⟩) ∧
    (900 < (1000 : Int) - 0 ∧
      verifyJWT ⟨some (.bearer (generateJWT "u1" "e@x.com" (some "admin") 0 "s")),
          none, none, "/api"⟩ "s" 1000
        = ⟨false, none, none, none, some "Token expired"⟩) := by
  constructor
  · exact ⟨by decide, (generateJWT_roundtrip "u1" "e@x.com" (some "admin")
      0 100 "s" none none "/api").1 (by decide)⟩
  · exact ⟨by decide, (generateJWT_roundtrip "u1" "e@x.com" (some "admin")
      0 1000 "s" none none "/api").2 (by decide)⟩

/-- C5 (counterexample). A refresh token — audience
`'shopify-automation-refresh'` — presented as a Bearer token is *accepted*
by `verifyJWT` (`valid = true`), because `jwt.verify` is called without an
`audience` option and therefore never checks it. -/
theorem verifyJWT_accepts_refresh_token :
    verifyJWT ⟨some (.bearer (generateRefreshToken "u1" false 0 "s")),
        none, none, "/api"⟩ "s" 100
      = ⟨true, some "u1", none, none, none⟩ ∧
    (generateRefreshToken "u1" false 0 "s").audience
      = "shopify-automation-refresh" := by
  decide

/-- C5 (amended). The verifier `verifyJWT` checks signature and expiry only; any
unexpired refresh token signed with the same secret is accepted as a
Bearer token, yielding `valid = true` with its `userId` claim. -/
theorem verifyJWT_no_audience_check (userId : String) (remember : Bool)
    (iat now : Int) (secret : String) (xff xri : Option String)
    (url : String)
    (h : now < iat + (if remember then REFRESH_LIFETIME_REMEMBER
        else REFRESH_LIFETIME_DEFAULT)) :
    verifyJWT ⟨some (.bearer (generateRefreshToken userId remember iat secret)),
        xff, xri, url⟩ secret now
      = ⟨true, some userId, none, none, none⟩ := by
  have hexp : ¬ (iat + (if remember then REFRESH_LIFETIME_REMEMBER
      else REFRESH_LIFETIME_DEFAULT) ≤ now) := by omega
  simp [verifyJWT, generateRefreshToken, jwtVerify, hexp]

/-- Witness for the amended C5. -/
theorem verifyJWT_no_audience_check_witness :
    ((100 : Int) < 0 + (if false then REFRESH_LIFETIME_REMEMBER
        else REFRESH_LIFETIME_DEFAULT)) ∧
    verifyJWT ⟨some (.bearer (generateRefreshToken "u2" false 0 "s")),
        none, none, "/api"⟩ "s" 100
      = ⟨true, some "u2", none, none, none⟩ :=
  ⟨by decide, verifyJWT_no_audience_check "u2" false 0 100 "s" none none
    "/api" (by decide)⟩

/-! Section: theorems about `withAuth`. -/

/-- A downstream handler returning a bare 200 response. -/
def okHandler : Request → AuthResult → Response := fun _ _ => ⟨200, []⟩

/-- A second, observably different downstream handler. -/
def denyHandler : Request → AuthResult → Response := fun _ _ => ⟨403, []⟩

/-- A request carrying a fresh, correctly signed access token. -/
def demoRequest : Request :=
  ⟨some (.bearer (generateJWT "u1" "e@x.com" none 0 "s")), none, none,
   "/api/x"⟩

/-- C6 (counterexample). A request that passes both the configured
rate limit and token verification receives the handler's response with
*no* security headers and *no* rate-limit header attached: the success
path of `withAuth` returns `handler(request, auth)` unmodified. -/
theorem withAuth_no_headers_on_success :
    (let result := (withAuth okHandler ⟨some ⟨10, 900000⟩, some "/api/x"⟩
        "s" demoRequest [] 100).1;
     result.status = 200 ∧
     alistFind result.headers "X-Frame-Options" = none ∧
     alistFind result.headers "X-Content-Type-Options" = none ∧
     alistFind result.headers "X-XSS-Protection" = none ∧
     alistFind result.headers "X-RateLimit-Remaining" = none) := by
  decide

/-- C6 (amended). For every request that passes both rate limiting and
token verification, `withAuth` returns the downstream handler's response
exactly as produced — it attaches nothing to it. -/
theorem withAuth_success_passthrough
    (handler : Request → AuthResult → Response) (options : AuthOptions)
    (secret : String) (req : Request) (maps : RateLimitMaps) (now : Int)
    (hauth : (verifyJWT req secret now).valid = true)
    (hrate : ∀ rl, options.rateLimit = some rl →
      (checkRateLimit (getClientIdentifier req) (options.endpoint.getD req.url)
        rl.max rl.windowMs now maps).1.allowed = true) :
    (withAuth handler options secret req maps now).1
      = handler req (verifyJWT req secret now) := by
  cases hopt : options.rateLimit with
  | none => simp [withAuth, hopt, authPhase, hauth]
  | some rl => simp [withAuth, hopt, hrate rl hopt, authPhase, hauth]

/-- Witness for the amended C6. -/
theorem withAuth_success_passthrough_witness :
    ((verifyJWT demoRequest "s" 100).valid = true) ∧
    (withAuth okHandler ⟨none, none⟩ "s" demoRequest [] 100).1
      = okHandler demoRequest (verifyJWT demoRequest "s" 100) :=
  ⟨by decide, withAuth_success_passthrough okHandler ⟨none, none⟩ "s"
    demoRequest [] 100 (by decide) (fun rl h => nomatch h)⟩

/-- C7. The wrapper `withAuth` requires authentication unconditionally: whenever
`verifyJWT` rejects the request (no `Bearer` header, malformed, expired or
bad-signature token), the wrapped handler's output does not depend on the
downstream handler at all — it is never invoked — and, whenever the
rate-limit phase admits the request, the response status is 401; no
member of the options type can disable this. -/
theorem withAuth_requires_auth
    (handlerA handlerB : Request → AuthResult → Response)
    (options : AuthOptions) (secret : String) (req : Request)
    (maps : RateLimitMaps) (now : Int)
    (hauth : (verifyJWT req secret now).valid = false) :
    withAuth handlerA options secret req maps now
      = withAuth handlerB options secret req maps now ∧
    ((∀ rl, options.rateLimit = some rl →
        (checkRateLimit (getClientIdentifier req)
          (options.endpoint.getD req.url) rl.max rl.windowMs now
          maps).1.allowed = true) →
      (withAuth handlerA options secret req maps now).1.status = 401) := by
  constructor
  · cases hopt : options.rateLimit with
    | none => simp [withAuth, hopt, authPhase, hauth]
    | some rl => simp [withAuth, hopt, authPhase, hauth]
  · intro hrate
    cases hopt : options.rateLimit with
    | none => simp [withAuth, hopt, authPhase, hauth]
    | some rl => simp [withAuth, hopt, hrate rl hopt, authPhase, hauth]

/-- Witness for C7: a request with no `Authorization` header at all. -/
theorem withAuth_requires_auth_witness :
    ((verifyJWT ⟨none, none, none, "/api/x"⟩ "s" 0).valid = false) ∧
    withAuth okHandler ⟨none, none⟩ "s" ⟨none, none, none, "/api/x"⟩ [] 0
      = withAuth denyHandler ⟨none, none⟩ "s" ⟨none, none, none, "/api/x"⟩ [] 0 ∧
    (withAuth okHandler ⟨none, none⟩ "s" ⟨none, none, none, "/api/x"⟩ [] 0).1.status
      = 401 := by
  have h := withAuth_requires_auth okHandler denyHandler ⟨none, none⟩ "s"
    ⟨none, none, none, "/api/x"⟩ [] 0 (by decide)
  exact ⟨by decide, h.1, h.2 (fun rl hrl => nomatch hrl)⟩

end AutoShopify
